import Mathlib

/-!
Verification of the Brazen N-dimensional physics simulation core.

The development shallowly embeds the physics-relevant headers of the
repository (src/include/tuple.h, particle.h, spring.h, object.h,
simulator.h) in Lean 4.  Scalars (C++ `double`) are modelled as exact
rationals `ℚ`; an N-dimensional `Tuple<_Size>` becomes a function
`Fin n → ℚ`.  The two sources of partiality and nondeterminism in the
C++ code are made explicit:

* `std::sqrt` is modelled by `sqrtQ`, which is exact on rationals that
  are perfect squares (the only inputs any theorem below evaluates it
  on) and a `Nat.sqrt`-based approximation elsewhere;
* the random unit vector that `unit` (tuple.h, lines 495-512) falls
  back to when normalizing the zero vector is passed in explicitly as
  a `fallback` argument, modelling the draw from the global random
  state of `random_unit` (tuple.h, lines 437-469);
* calls that terminate the process (`exit(EXIT_FAILURE)`) or throw
  (`std::vector::at` out of range) are modelled with `Except String`.

Several of the cited source functions contain identifier typos that
would not compile as written (`naturalLength` for `natural_length`,
`P1ToP2` for `P1toP2`, `totalChange` for `total_change`,
`mutualChangeVector`/`forceVector` as the evident `Tuple`-valued
locals); the embedding reads them as the unambiguous intended
identifier.  Well-formed expressions are embedded exactly as written.
-/

namespace Brazen

/-- N-dimensional tuple of scalars, modelling `Tuple<_Size>`
(src/include/tuple.h).  Componentwise addition, subtraction and
negation come from the pointwise (Pi) instances and coincide with the
componentwise loops of tuple.h. -/
abbrev Tup (n : ℕ) := Fin n → ℚ

/-- Scalar-vector multiplication `v * s` (tuple.h, lines 285-301). -/
def tsmul {n : ℕ} (v : Tup n) (s : ℚ) : Tup n := fun i => v i * s

/-- Scalar-vector division `v / s` (tuple.h, lines 325-341). -/
def tdiv {n : ℕ} (v : Tup n) (s : ℚ) : Tup n := fun i => v i / s

/-- Dot product (tuple.h, lines 385-399). -/
def dotQ {n : ℕ} (v w : Tup n) : ℚ := (List.ofFn fun i => v i * w i).sum

/-- Squared magnitude (tuple.h, lines 409-425). -/
def magnitudeSquared {n : ℕ} (v : Tup n) : ℚ := (List.ofFn fun i => v i * v i).sum

/-- Models `std::sqrt` on the nonnegative rationals that stand in for
`double`: exact whenever the argument is a perfect square of a rational
(numerator and denominator of the reduced form are perfect squares),
`Nat.sqrt`-approximate otherwise.  Every theorem below only ever
evaluates it on perfect squares, where it agrees with the real square
root. -/
def sqrtQ (q : ℚ) : ℚ :=
  if q ≤ 0 then 0 else (Nat.sqrt q.num.toNat : ℚ) / (Nat.sqrt q.den : ℚ)

/-- Magnitude `magnitude(v) = sqrt(magnitudeSquared(v))` (tuple.h,
lines 427-430). -/
def magnitudeQ {n : ℕ} (v : Tup n) : ℚ := sqrtQ (magnitudeSquared v)

/-- `unit(v)` with the default `fake_it = true` (tuple.h, lines
495-512): if the magnitude is positive, `v / mag`; otherwise the
randomly oriented unit vector returned by `random_unit`, modelled as
the explicit argument `fb`. -/
def unitW {n : ℕ} (v : Tup n) (fb : Tup n) : Tup n :=
  if 0 < magnitudeQ v then tdiv v (magnitudeQ v) else fb

/-- Scalar projection of `v1` onto `v2` (tuple.h, lines 517-520). -/
def projScalar {n : ℕ} (v1 v2 : Tup n) : ℚ := dotQ v1 v2 / magnitudeQ v2

/-- A particle (src/include/particle.h, lines 26-99): position,
velocity, accumulated force, the two soft ragdoll deltas, the two hard
ragdoll deltas, mass and inverse mass. -/
structure Particle (n : ℕ) where
  pos : Tup n
  vel : Tup n
  F : Tup n
  m_delta_pos : Tup n
  m_delta_vel : Tup n
  m_delta_pos_hard : Tup n
  m_delta_vel_hard : Tup n
  mass : ℚ
  invMass : ℚ

instance {n : ℕ} : Inhabited (Particle n) :=
  ⟨⟨0, 0, 0, 0, 0, 0, 0, 0, 0⟩⟩

/-- `Particle::update(seconds_per_cycle)` (particle.h, lines 71-98),
translated statement by statement: movable particles apply the soft
deltas scaled by `invMass` and then the accumulated force; immovable
particles apply and clear the hard deltas; both branches clear the
soft deltas, integrate the position with the updated velocity, and
clear the force accumulator. -/
def Particle.update {n : ℕ} (p : Particle n) (dt : ℚ) : Particle n :=
  if 0 < p.invMass then
    let vel1 := p.vel + tsmul p.m_delta_vel p.invMass
    let pos1 := p.pos + tsmul p.m_delta_pos p.invMass
    let vel2 := vel1 + tsmul p.F (p.invMass * dt)
    { p with vel := vel2,
             m_delta_vel := 0, m_delta_pos := 0,
             pos := pos1 + tsmul vel2 dt,
             F := 0 }
  else
    let vel1 := p.vel + p.m_delta_vel_hard
    let pos1 := p.pos + p.m_delta_pos_hard
    { p with vel := vel1,
             m_delta_vel_hard := 0, m_delta_pos_hard := 0,
             m_delta_vel := 0, m_delta_pos := 0,
             pos := pos1 + tsmul vel1 dt,
             F := 0 }

/-- The copy constructor `Particle(const Particle&)` (particle.h,
lines 56-59): copies position, velocity, mass and inverse mass; the
force accumulator and all four delta fields are (re)initialized to
zero. -/
def Particle.copy {n : ℕ} (p : Particle n) : Particle n :=
  { pos := p.pos, vel := p.vel, F := 0,
    m_delta_pos := 0, m_delta_vel := 0,
    m_delta_pos_hard := 0, m_delta_vel_hard := 0,
    mass := p.mass, invMass := p.invMass }

/-- `SpringForceType` (src/include/spring.h, lines 247-253). -/
inductive SpringForceType where
  | SPRING
  | CONSTANT
  | STRONG
  | NO_FORCE
  | MUSCLE
deriving DecidableEq

/-- A connection (src/include/spring.h, lines 281-292): indices of the
two endpoint particles, natural length, the two strengths, the two
force types, and the plastic deformation coefficient. -/
structure Spring where
  p1_index : ℕ
  p2_index : ℕ
  natural_length : ℚ
  compression_force_strength : ℚ
  tension_force_strength : ℚ
  compression_force_type : SpringForceType
  tension_force_type : SpringForceType
  deformation_coefficient : ℚ
deriving DecidableEq

/-- The `STRONG` branch of `Spring::update` when at least one particle
has finite mass (spring.h, lines 455-470 followed by the force
adjustment at lines 483-488): apply opposite soft position/velocity
deltas and the opposite force change `dF`, then zero the relative
force along the axis through `mcv` (computed from the already-updated
accumulated forces, as the source's sequential mutation does). -/
def strongSoft {n : ℕ} (p1 p2 : Particle n) (mdp mdv dF : Tup n)
    (fcoeff : ℚ) (axis : Tup n) : Particle n × Particle n :=
  let q1 := { p1 with m_delta_pos := p1.m_delta_pos - mdp,
                      m_delta_vel := p1.m_delta_vel - mdv,
                      F := p1.F - dF }
  let q2 := { p2 with m_delta_pos := p2.m_delta_pos + mdp,
                      m_delta_vel := p2.m_delta_vel + mdv,
                      F := p2.F + dF }
  -- Adjust force: zero the relative force along the colinear axis
  let tc := dotQ q1.F axis - dotQ q2.F axis
  let mcv := tsmul axis (fcoeff * tc / 2)
  ({ q1 with F := q1.F - mcv }, { q2 with F := q2.F + mcv })

/-- The `STRONG` branch of `Spring::update` when both particles have
infinite mass (spring.h, lines 471-481 followed by the force
adjustment at lines 483-488): route the (zero-scaled) corrections
through the hard delta channel, then the same force adjustment. -/
def strongHard {n : ℕ} (p1 p2 : Particle n) (mdp mdv : Tup n)
    (fcoeff : ℚ) (axis : Tup n) : Particle n × Particle n :=
  let q1 := { p1 with m_delta_pos_hard := p1.m_delta_pos_hard - mdp,
                      m_delta_vel_hard := p1.m_delta_vel_hard - mdv }
  let q2 := { p2 with m_delta_pos_hard := p2.m_delta_pos_hard + mdp,
                      m_delta_vel_hard := p2.m_delta_vel_hard + mdv }
  let tc := dotQ q1.F axis - dotQ q2.F axis
  let mcv := tsmul axis (fcoeff * tc / 2)
  ({ q1 with F := q1.F - mcv }, { q2 with F := q2.F + mcv })

/-- The force-law `switch` of `Spring::update` (spring.h, lines
433-499), applied after the regime (compression/tension) has selected
`ftype` and `fcoeff` and after `natural_length` has deformed to the
value held by `sp2`.  Mirrors the source case by case: `NO_FORCE` and
the unimplemented `MUSCLE` return immediately; `SPRING` and `CONSTANT`
fall through to the equal-and-opposite force application (lines
496-498); `STRONG` distributes inverse-mass-weighted position and
velocity corrections through the soft delta channel (`strongSoft`, or
the hard channel `strongHard` when both particles have infinite mass)
and then zeroes the relative force along the axis. -/
def springApplyLaw {n : ℕ} (ftype : SpringForceType) (fcoeff displacement : ℚ)
    (axis : Tup n) (sp2 : Spring) (p1 p2 : Particle n) :
    Spring × Particle n × Particle n :=
  match ftype with
  | .NO_FORCE => (sp2, p1, p2)
  | .MUSCLE => (sp2, p1, p2)
  | .SPRING =>
      let fv := tsmul axis (fcoeff * displacement)
      (sp2, { p1 with F := p1.F + fv }, { p2 with F := p2.F - fv })
  | .CONSTANT =>
      let fm := if 0 ≤ displacement then fcoeff else -fcoeff
      let fv := tsmul axis fm
      (sp2, { p1 with F := p1.F + fv }, { p2 with F := p2.F - fv })
  | .STRONG =>
      let ims := p1.invMass + p2.invMass
      let iims := if 0 < ims then 1 / ims else 0
      let mdp := tsmul axis (fcoeff * displacement * iims)
      let mdv := tsmul axis (fcoeff * (dotQ p1.vel axis - dotQ p2.vel axis) * iims)
      if 0 < iims then
        let dF := tsmul axis
          (fcoeff * (p1.invMass * dotQ p1.F axis - p2.invMass * dotQ p2.F axis) * iims)
        (sp2, strongSoft p1 p2 mdp mdv dF fcoeff axis)
      else
        (sp2, strongHard p1 p2 mdp mdv fcoeff axis)

/-- Body of `Spring::update` (spring.h, lines 398-500) acting on the
two endpoint particles it has looked up; returns the updated spring
(its `natural_length` mutates) and the two updated particles.  `fb`
is the unit vector that `unit` would draw from the global random state
if `P1toP2` is the zero vector.  Nothing happens unless the computed
distance differs from `natural_length`; otherwise the natural length
deforms first (lines 417-420), the regime is selected by comparing
the distance with the deformed natural length (lines 422-430), and
the selected law is applied (`springApplyLaw`). -/
def springUpdateCore {n : ℕ} (sp : Spring) (p1 p2 : Particle n) (fb : Tup n) :
    Spring × Particle n × Particle n :=
  let P1toP2 := p2.pos - p1.pos
  let distance := magnitudeQ P1toP2
  let axis := unitW P1toP2 fb
  if distance = sp.natural_length then (sp, p1, p2)
  else
    -- Deform the natural length according to the deformation coefficient
    let nl := sp.natural_length + (distance - sp.natural_length) * sp.deformation_coefficient
    springApplyLaw
      (if distance < nl then sp.compression_force_type else sp.tension_force_type)
      (if distance < nl then sp.compression_force_strength else sp.tension_force_strength)
      (distance - nl) axis { sp with natural_length := nl } p1 p2

/-- An output particle (particle.h, lines 106-121): only the data
needed to display a particle.  The default constructor zero-initializes
the position (`Tuple(true)`). -/
structure OutputParticle (n : ℕ) where
  pos : Tup n
deriving DecidableEq

/-- `OutputParticle::clone` (particle.h, lines 118-120). -/
def OutputParticle.clone {n : ℕ} (p : Particle n) : OutputParticle n :=
  ⟨p.pos⟩

/-- The state of a `Simulator<_Size>` (src/include/simulator.h, lines
41-157): the particle store, the springs, the three output buffers
(identified by role; the C++ rotates three heap vectors by pointer
swap, modelled here by exchanging the field contents wholesale), the
output-ready flag and the running flag.  The mutexes serialize access
and carry no state of their own, so they do not appear. -/
structure SimState (n : ℕ) where
  particles : List (Particle n)
  springs : List Spring
  write_output : List (OutputParticle n)
  latest_output : List (OutputParticle n)
  read_output : List (OutputParticle n)
  output_is_ready : Bool
  running : Bool

/-- The default constructor (simulator.h, lines 166-172): three fresh
empty output vectors, both flags false. -/
def SimState.init (n : ℕ) : SimState n :=
  { particles := [], springs := [],
    write_output := [], latest_output := [], read_output := [],
    output_is_ready := false, running := false }

/-- `Simulator::size` (simulator.h, lines 197-200). -/
def SimState.size {n : ℕ} (s : SimState n) : ℕ := s.particles.length

/-- `Simulator::getOutput` (simulator.h, lines 207-210): the contents
of the read buffer. -/
def SimState.getOutput {n : ℕ} (s : SimState n) : List (OutputParticle n) :=
  s.read_output

/-- `Simulator::addParticle` (simulator.h, lines 219-231): copy the
particle into the store (via the copy constructor) and push a
default-constructed `OutputParticle` onto each of the three output
buffers. -/
def SimState.addParticle {n : ℕ} (s : SimState n) (p : Particle n) : SimState n :=
  { s with particles := s.particles ++ [p.copy],
           write_output := s.write_output ++ [⟨0⟩],
           latest_output := s.latest_output ++ [⟨0⟩],
           read_output := s.read_output ++ [⟨0⟩] }

/-- `Simulator::addSpring` (simulator.h, lines 243-252): copy the
spring and attach it to particles `i` and `j`.  `particles.at(...)`
throws for an out-of-range index, and `setEndpoints` is not under
src/ (only its call site is); its endpoint check is modelled from the
spec, which states that connecting a particle to itself and
out-of-range ids "fail fatally" (spec sections 4.2 and 6). -/
def SimState.addSpringE {n : ℕ} (s : SimState n) (i j : ℕ) (sp : Spring) :
    Except String (SimState n) :=
  if i = j then .error "cannot attach a particle to itself"
  else if i < s.particles.length ∧ j < s.particles.length then
    .ok { s with springs := s.springs ++ [{ sp with p1_index := i, p2_index := j }] }
  else .error "particle index out of range"

/-- `Simulator::updateOutput` (simulator.h, lines 281-301): if the
output-ready flag is set, clear it, swap the latest and read buffer
identities and return true; otherwise return false and change
nothing. -/
def SimState.updateOutput {n : ℕ} (s : SimState n) : SimState n × Bool :=
  if s.output_is_ready then
    ({ s with output_is_ready := false,
              latest_output := s.read_output,
              read_output := s.latest_output }, true)
  else (s, false)

/-- The spring loop of `Simulator::updateState` (simulator.h, lines
325-327): each spring's `update` runs in order, reading and writing
its two endpoint particles (looked up by index, spring.h lines
399-401) and its own `natural_length`.  An out-of-range lookup throws
(`std::vector::at`). -/
def runSprings {n : ℕ} (fb : Tup n) :
    List Spring → List (Particle n) → Except String (List (Particle n) × List Spring)
  | [], ps => .ok (ps, [])
  | sp :: rest, ps =>
    if h : sp.p1_index < ps.length ∧ sp.p2_index < ps.length then
      let r := springUpdateCore sp (ps.get ⟨sp.p1_index, h.1⟩)
        (ps.get ⟨sp.p2_index, h.2⟩) fb
      let ps2 := (ps.set sp.p1_index r.2.1).set sp.p2_index r.2.2
      (runSprings fb rest ps2).map (fun q => (q.1, r.1 :: q.2))
    else .error "particle index out of range"

/-- `Simulator::updateState` (simulator.h, lines 312-350): a fatal
error if `running` is set (the C++ prints a diagnostic to `stderr` and
calls `exit(EXIT_FAILURE)`); otherwise update every spring, update
every particle and clone it into the write buffer at the same index
(`write_output->at(i)` throws if the buffer is shorter than the
particle list), then swap the write and latest buffer identities and
set the output-ready flag. -/
def SimState.updateStateE {n : ℕ} (s : SimState n) (dt : ℚ) (fb : Tup n) :
    Except String (SimState n) :=
  if s.running then
    .error "cannot call updateState on running Simulator instance"
  else
    match runSprings fb s.springs s.particles with
    | .error e => .error e
    | .ok q =>
      let ps1 := q.1
      if ps1.length ≤ s.write_output.length then
        let ps2 := ps1.map (fun p => p.update dt)
        let wo := ps2.map OutputParticle.clone ++ s.write_output.drop ps2.length
        .ok { s with particles := ps2, springs := q.2,
                     write_output := s.latest_output,
                     latest_output := wo,
                     output_is_ready := true }
      else .error "write output index out of range"

/-- One call of the public Simulator API (simulator.h): the mutation
calls, the two update calls and the mode switches.  `start` spawns the
background thread and `stop` joins it; only their effect on the
`running` flag is modelled (the background loop itself is the
concurrent re-execution of the `updateState` body and is out of scope
of a sequential embedding). -/
inductive Cmd (n : ℕ) where
  | addParticle (p : Particle n)
  | addSpring (i j : ℕ) (sp : Spring)
  | updateState (dt : ℚ) (fb : Tup n)
  | updateOutput
  | start
  | stop

/-- Whether a command is an `addParticle` call. -/
def Cmd.isAddParticle {n : ℕ} : Cmd n → Bool
  | .addParticle _ => true
  | _ => false

/-- Execute one API call.  Calls on which the C++ process would
terminate fatally (or throw) leave the state unchanged; no sequence
considered by the theorems below reaches such a call in a way that
matters, and the fatal calls themselves are stated through
`updateStateE`/`addSpringE` directly. -/
def SimState.exec {n : ℕ} (s : SimState n) : Cmd n → SimState n
  | .addParticle p => s.addParticle p
  | .addSpring i j sp =>
    match s.addSpringE i j sp with
    | .ok s' => s'
    | .error _ => s
  | .updateState dt fb =>
    match s.updateStateE dt fb with
    | .ok s' => s'
    | .error _ => s
  | .updateOutput => s.updateOutput.1
  | .start => { s with running := true }
  | .stop => { s with running := false }

/-- Run a sequence of API calls from a fresh Simulator. -/
def runCmds (n : ℕ) (cmds : List (Cmd n)) : SimState n :=
  cmds.foldl SimState.exec (SimState.init n)

/-- A Simulator state reachable through the public API. -/
def Reachable {n : ℕ} (s : SimState n) : Prop :=
  ∃ cmds : List (Cmd n), s = runCmds n cmds

/-- A face of an object: `struct Surface<_Size>` from surface.h,
staged in src/include/vector.h (lines 292-298) — an array of `_Size`
particle references spanning the facet.  `particle_ref<_Size>` is
`std::uint32_t`, an index into the Simulator's particle store
(src/unnamed/part_001, line 93), modelled as `ℕ`. -/
structure Surface (n : ℕ) where
  particle_refs : Fin n → ℕ

/-- An object (object.h, lines 145-225): a list of particle indices
and a list of faces.  The cached mass sums play no role in the
detection routine and are omitted. -/
structure Object (n : ℕ) where
  particle_refs : List ℕ
  surfaces : List (Surface n)

/-- Position of the particle at index `i`; `particle_refs[0]` on the
C++ side is unchecked vector indexing, modelled with a zero default
(all inputs used below are in range). -/
def posAt {n : ℕ} (particles : List (Particle n)) (i : ℕ) : Tup n :=
  (particles.getD i default).pos

/-- The `[min,max]` projection interval of an object onto an axis
(object.h, lines 252-267): seeded from element 0 of the reference
list, then folded with `fmin`/`fmax` over every vertex.  The second
loop of the C++ contains the index typo `particles[vertex.pos, axis]`
for `particles[vertex].pos, axis`, read as intended. -/
def projInterval {n : ℕ} (particles : List (Particle n)) (axis : Tup n)
    (refs : List ℕ) : ℚ × ℚ :=
  let first := projScalar (posAt particles (refs.headD 0)) axis
  refs.foldl
    (fun mm r =>
      let t := projScalar (posAt particles r) axis
      (min mm.1 t, max mm.2 t))
    (first, first)

/-- The axis loop of `detectObjectCollision` (object.h, lines 246-283)
over the remaining surfaces, carrying the running minimum intersection
and minimum axis.  Note `diff2 = maxproj2 - minproj2` is exactly what
the source computes (line 271). -/
def detectLoop {n : ℕ} (nf : Surface n → List (Particle n) → Tup n) (fb : Tup n)
    (particles : List (Particle n)) (obj1 obj2 : Object n) :
    List (Surface n) → ℚ → Tup n → Bool × ℚ × Tup n
  | [], inter, minaxis => (true, inter, minaxis)
  | srf :: rest, inter, minaxis =>
    let axis := unitW (nf srf particles) fb
    let i1 := projInterval particles axis obj1.particle_refs
    let i2 := projInterval particles axis obj2.particle_refs
    let diff1 := i1.2 - i2.1
    let diff2 := i2.2 - i2.1
    if diff1 < 0 ∨ diff2 < 0 then (false, inter, minaxis)
    else
      let temp := if diff1 < diff2 then diff1 else -diff2
      if temp < inter ∨ inter < 0 then
        detectLoop nf fb particles obj1 obj2 rest temp axis
      else
        detectLoop nf fb particles obj1 obj2 rest inter minaxis

/-- `detectObjectCollision` (object.h, lines 235-286).  The axes are
the normalized surface normals of `obj1` followed by those of `obj2`;
the out-parameters are modelled as the pair of returned values after
the call: the reference parameter `intersection` is assigned inside
the loop (initialized to −1), while `axisOfMinimumIntersection` is
never assigned by the function body (the local `minaxis` is computed
but not copied out), so its returned value is the caller's `axisIn`.
`nf` is the statically dispatched `Surface::getNormal` for the
instantiated dimension (surface.h, staged in src/include/vector.h,
lines 300-325); the theorems below instantiate it with the
dimension-2 specialization `Surface.getNormal`.  `fb` is the
random-unit fallback of `unit`. -/
def detectObjectCollision {n : ℕ} (nf : Surface n → List (Particle n) → Tup n)
    (fb : Tup n) (particles : List (Particle n)) (obj1 obj2 : Object n)
    (axisIn : Tup n) : Bool × Tup n × ℚ :=
  let r := detectLoop nf fb particles obj1 obj2
    (obj1.surfaces ++ obj2.surfaces) (-1) axisIn
  (r.1, axisIn, r.2.1)

/-- `Surface<2>::getNormal` (surface.h, staged in
src/include/vector.h, lines 312-317): `axis` is the segment from the
first to the second referenced particle and the returned normal is
`(axis.y, -axis.x)`.  (The unspecialized template aborts with
"N-dimensional cross product not yet implemented", vector.h lines
300-310, so dimension 2 is the implemented instance.)  The
`particles[...]` accesses are unchecked `operator[]` indexing,
modelled with the same zero default as `posAt`. -/
def Surface.getNormal (srf : Surface 2) (particles : List (Particle 2)) : Tup 2 :=
  let axis := posAt particles (srf.particle_refs 1) - posAt particles (srf.particle_refs 0)
  ![axis 1, -(axis 0)]

/-- The constructor `Particle(Tuple pos, double mass)` (particle.h,
lines 36-40): zero velocity and force, zero deltas, and
`invMass = mass > 0 ? 1/mass : 0`. -/
def Particle.ofPosMass {n : ℕ} (pos : Tup n) (mass : ℚ) : Particle n :=
  { pos := pos, vel := 0, F := 0,
    m_delta_pos := 0, m_delta_vel := 0,
    m_delta_pos_hard := 0, m_delta_vel_hard := 0,
    mass := mass, invMass := if 0 < mass then 1 / mass else 0 }

/-- One step of the concrete gravity scenario of spec section 8: the
force `(0, −1)` is accumulated into the particle once, then
`Particle::update` runs with `dt = 1/10`. -/
def gravStep (p : Particle 2) : Particle 2 :=
  Particle.update { p with F := p.F + ![0, -1] } (1/10)

/-- The scenario's particle: mass 1 at the origin with zero initial
velocity. -/
def freeParticle : Particle 2 := Particle.ofPosMass ![0, 0] 1

/-- One integration cycle of `Simulator::updateState` restricted to a
single connection and its two endpoint particles: the spring updates
first (simulator.h, lines 326-327), then each particle integrates
(lines 330-333). -/
def springCycle {n : ℕ} (dt : ℚ) (fb : Tup n)
    (t : Spring × Particle n × Particle n) : Spring × Particle n × Particle n :=
  let r := springUpdateCore t.1 t.2.1 t.2.2 fb
  (r.1, r.2.1.update dt, r.2.2.update dt)

/-- Witness input: an ideal spring of natural length 1 with unit
strengths and no plastic deformation. -/
def wSpringUnit : Spring :=
  { p1_index := 0, p2_index := 1, natural_length := 1,
    compression_force_strength := 1, tension_force_strength := 1,
    compression_force_type := .SPRING, tension_force_type := .SPRING,
    deformation_coefficient := 0 }

/-- Witness input: an ideal spring of natural length 2 that plastically
deforms with coefficient 1/2. -/
def wSpringDeform : Spring :=
  { p1_index := 0, p2_index := 1, natural_length := 2,
    compression_force_strength := 1, tension_force_strength := 1,
    compression_force_type := .SPRING, tension_force_type := .SPRING,
    deformation_coefficient := 1/2 }

/-- Witness input: a movable unit-mass particle at the origin. -/
def wParticleA : Particle 2 := Particle.ofPosMass ![0, 0] 1

/-- Witness input: a movable unit-mass particle at `(1, 0)`. -/
def wParticleB : Particle 2 := Particle.ofPosMass ![1, 0] 1

/-- Witness input: an immovable particle (mass 0 is stored with
`invMass = 0`, the code's encoding of infinite mass). -/
def wAnchor : Particle 2 := Particle.ofPosMass ![0, 0] 0

/-- Witness input: a Simulator state whose output-ready flag is set
and whose three buffers are pairwise distinguishable. -/
def wStateReady : SimState 2 :=
  { particles := [], springs := [],
    write_output := [⟨![1, 0]⟩], latest_output := [⟨![2, 0]⟩],
    read_output := [⟨![3, 0]⟩],
    output_is_ready := true, running := false }

/-- Witness input: a running Simulator state. -/
def wStateRunning : SimState 2 :=
  { SimState.init 2 with running := true }

/-- Failing input for the collision detector: four particles making up
two clearly separated segments, `obj2` lying entirely at `x = 0` and
`obj1` entirely at `x = 10`. -/
def wDetectParticles : List (Particle 2) :=
  [Particle.ofPosMass ![10, 0] 1, Particle.ofPosMass ![10, 1] 1,
   Particle.ofPosMass ![0, 0] 1, Particle.ofPosMass ![0, 1] 1]

/-- The object at `x = 10` (particles 0 and 1, one face). -/
def wObj1 : Object 2 := ⟨[0, 1], [⟨![0, 1]⟩]⟩

/-- The object at `x = 0` (particles 2 and 3, one face). -/
def wObj2 : Object 2 := ⟨[2, 3], [⟨![2, 3]⟩]⟩

/-- The separating axis both faces of the failing input produce: the
normalized normal of the face spanned by particles 0 and 1. -/
def wAxis : Tup 2 :=
  unitW (Surface.getNormal ⟨![0, 1]⟩ wDetectParticles) ![1, 0]

/-- The length/index invariant every API-reachable Simulator state
satisfies: all three output buffers have exactly as many slots as
there are particles, and every stored spring references two distinct
in-range particles. -/
def SimInv {n : ℕ} (s : SimState n) : Prop :=
  s.write_output.length = s.particles.length ∧
  s.latest_output.length = s.particles.length ∧
  s.read_output.length = s.particles.length ∧
  ∀ sp ∈ s.springs,
    sp.p1_index < s.particles.length ∧ sp.p2_index < s.particles.length

theorem tsmul_zero_fun {n : ℕ} (s : ℚ) : tsmul (0 : Tup n) s = 0 :=
  funext fun _ => by simp [tsmul]

/-- A particle with zero velocity, zero accumulated force and no
pending deltas is a fixed point of `Particle::update`, for any `dt`. -/
theorem Particle.update_static {n : ℕ} (p : Particle n) (dt : ℚ)
    (hv : p.vel = 0) (hF : p.F = 0)
    (h1 : p.m_delta_pos = 0) (h2 : p.m_delta_vel = 0)
    (h3 : p.m_delta_pos_hard = 0) (h4 : p.m_delta_vel_hard = 0) :
    p.update dt = p := by
  cases p with
  | mk pos vel F sdp sdv hdp hdv m im =>
    simp only at hv hF h1 h2 h3 h4
    subst hv hF h1 h2 h3 h4
    unfold Particle.update
    split <;> simp [tsmul_zero_fun]

/-- The per-law application returns exactly the spring it is given. -/
theorem springApplyLaw_spring_eq {n : ℕ} (ftype : SpringForceType)
    (fcoeff displacement : ℚ) (axis : Tup n) (sp2 : Spring)
    (p1 p2 : Particle n) :
    (springApplyLaw ftype fcoeff displacement axis sp2 p1 p2).1 = sp2 := by
  cases ftype <;> dsimp only [springApplyLaw] <;> (repeat split) <;> rfl

/-- Soft-channel `STRONG` application: opposite changes per channel. -/
theorem strongSoft_antisym {n : ℕ} (p1 p2 : Particle n) (mdp mdv dF : Tup n)
    (fcoeff : ℚ) (axis : Tup n) :
    (strongSoft p1 p2 mdp mdv dF fcoeff axis).1.pos = p1.pos ∧
    (strongSoft p1 p2 mdp mdv dF fcoeff axis).1.vel = p1.vel ∧
    (strongSoft p1 p2 mdp mdv dF fcoeff axis).2.pos = p2.pos ∧
    (strongSoft p1 p2 mdp mdv dF fcoeff axis).2.vel = p2.vel ∧
    (strongSoft p1 p2 mdp mdv dF fcoeff axis).1.F - p1.F
      = -((strongSoft p1 p2 mdp mdv dF fcoeff axis).2.F - p2.F) ∧
    (strongSoft p1 p2 mdp mdv dF fcoeff axis).1.m_delta_pos - p1.m_delta_pos
      = -((strongSoft p1 p2 mdp mdv dF fcoeff axis).2.m_delta_pos - p2.m_delta_pos) ∧
    (strongSoft p1 p2 mdp mdv dF fcoeff axis).1.m_delta_vel - p1.m_delta_vel
      = -((strongSoft p1 p2 mdp mdv dF fcoeff axis).2.m_delta_vel - p2.m_delta_vel) ∧
    (strongSoft p1 p2 mdp mdv dF fcoeff axis).1.m_delta_pos_hard - p1.m_delta_pos_hard
      = -((strongSoft p1 p2 mdp mdv dF fcoeff axis).2.m_delta_pos_hard - p2.m_delta_pos_hard) ∧
    (strongSoft p1 p2 mdp mdv dF fcoeff axis).1.m_delta_vel_hard - p1.m_delta_vel_hard
      = -((strongSoft p1 p2 mdp mdv dF fcoeff axis).2.m_delta_vel_hard - p2.m_delta_vel_hard) := by
  dsimp only [strongSoft]
  refine ⟨rfl, rfl, rfl, rfl, ?_, ?_, ?_, ?_, ?_⟩ <;> abel

/-- Hard-channel `STRONG` application: opposite changes per channel. -/
theorem strongHard_antisym {n : ℕ} (p1 p2 : Particle n) (mdp mdv : Tup n)
    (fcoeff : ℚ) (axis : Tup n) :
    (strongHard p1 p2 mdp mdv fcoeff axis).1.pos = p1.pos ∧
    (strongHard p1 p2 mdp mdv fcoeff axis).1.vel = p1.vel ∧
    (strongHard p1 p2 mdp mdv fcoeff axis).2.pos = p2.pos ∧
    (strongHard p1 p2 mdp mdv fcoeff axis).2.vel = p2.vel ∧
    (strongHard p1 p2 mdp mdv fcoeff axis).1.F - p1.F
      = -((strongHard p1 p2 mdp mdv fcoeff axis).2.F - p2.F) ∧
    (strongHard p1 p2 mdp mdv fcoeff axis).1.m_delta_pos - p1.m_delta_pos
      = -((strongHard p1 p2 mdp mdv fcoeff axis).2.m_delta_pos - p2.m_delta_pos) ∧
    (strongHard p1 p2 mdp mdv fcoeff axis).1.m_delta_vel - p1.m_delta_vel
      = -((strongHard p1 p2 mdp mdv fcoeff axis).2.m_delta_vel - p2.m_delta_vel) ∧
    (strongHard p1 p2 mdp mdv fcoeff axis).1.m_delta_pos_hard - p1.m_delta_pos_hard
      = -((strongHard p1 p2 mdp mdv fcoeff axis).2.m_delta_pos_hard - p2.m_delta_pos_hard) ∧
    (strongHard p1 p2 mdp mdv fcoeff axis).1.m_delta_vel_hard - p1.m_delta_vel_hard
      = -((strongHard p1 p2 mdp mdv fcoeff axis).2.m_delta_vel_hard - p2.m_delta_vel_hard) := by
  dsimp only [strongHard]
  refine ⟨rfl, rfl, rfl, rfl, ?_, ?_, ?_, ?_, ?_⟩ <;> abel

/-- The per-law application leaves positions and velocities untouched
and applies exactly opposite changes to the two particles in every
force/delta channel. -/
theorem springApplyLaw_antisym {n : ℕ} (ftype : SpringForceType)
    (fcoeff displacement : ℚ) (axis : Tup n) (sp2 : Spring)
    (p1 p2 : Particle n) :
    (springApplyLaw ftype fcoeff displacement axis sp2 p1 p2).2.1.pos = p1.pos ∧
    (springApplyLaw ftype fcoeff displacement axis sp2 p1 p2).2.1.vel = p1.vel ∧
    (springApplyLaw ftype fcoeff displacement axis sp2 p1 p2).2.2.pos = p2.pos ∧
    (springApplyLaw ftype fcoeff displacement axis sp2 p1 p2).2.2.vel = p2.vel ∧
    (springApplyLaw ftype fcoeff displacement axis sp2 p1 p2).2.1.F - p1.F
      = -((springApplyLaw ftype fcoeff displacement axis sp2 p1 p2).2.2.F - p2.F) ∧
    (springApplyLaw ftype fcoeff displacement axis sp2 p1 p2).2.1.m_delta_pos - p1.m_delta_pos
      = -((springApplyLaw ftype fcoeff displacement axis sp2 p1 p2).2.2.m_delta_pos - p2.m_delta_pos) ∧
    (springApplyLaw ftype fcoeff displacement axis sp2 p1 p2).2.1.m_delta_vel - p1.m_delta_vel
      = -((springApplyLaw ftype fcoeff displacement axis sp2 p1 p2).2.2.m_delta_vel - p2.m_delta_vel) ∧
    (springApplyLaw ftype fcoeff displacement axis sp2 p1 p2).2.1.m_delta_pos_hard - p1.m_delta_pos_hard
      = -((springApplyLaw ftype fcoeff displacement axis sp2 p1 p2).2.2.m_delta_pos_hard - p2.m_delta_pos_hard) ∧
    (springApplyLaw ftype fcoeff displacement axis sp2 p1 p2).2.1.m_delta_vel_hard - p1.m_delta_vel_hard
      = -((springApplyLaw ftype fcoeff displacement axis sp2 p1 p2).2.2.m_delta_vel_hard - p2.m_delta_vel_hard) := by
  cases ftype
  case SPRING =>
    dsimp only [springApplyLaw]
    refine ⟨rfl, rfl, rfl, rfl, ?_, ?_, ?_, ?_, ?_⟩ <;> abel
  case CONSTANT =>
    dsimp only [springApplyLaw]
    refine ⟨rfl, rfl, rfl, rfl, ?_, ?_, ?_, ?_, ?_⟩ <;> abel
  case NO_FORCE =>
    dsimp only [springApplyLaw]
    refine ⟨rfl, rfl, rfl, rfl, ?_, ?_, ?_, ?_, ?_⟩ <;> abel
  case MUSCLE =>
    dsimp only [springApplyLaw]
    refine ⟨rfl, rfl, rfl, rfl, ?_, ?_, ?_, ?_, ?_⟩ <;> abel
  case STRONG =>
    dsimp only [springApplyLaw]
    (repeat split) <;>
      first
        | exact strongSoft_antisym _ _ _ _ _ _ _
        | exact strongHard_antisym _ _ _ _ _ _

/-- C5: for every connection and every pair of endpoint particle
states, one `Spring::update` call leaves positions and velocities
unchanged and applies to particle 1 the exact negation of every
force/correction channel it applies to particle 2 (accumulated force,
soft position/velocity deltas and hard position/velocity deltas), so
the connection in isolation does not change the net momentum of its
endpoints.  This holds for every force law, in particular for SPRING,
CONSTANT and RIGID/STRONG as claimed. -/
theorem springUpdate_momentum_antisym {n : ℕ} (sp : Spring)
    (p1 p2 : Particle n) (fb : Tup n) :
    (springUpdateCore sp p1 p2 fb).2.1.pos = p1.pos ∧
    (springUpdateCore sp p1 p2 fb).2.1.vel = p1.vel ∧
    (springUpdateCore sp p1 p2 fb).2.2.pos = p2.pos ∧
    (springUpdateCore sp p1 p2 fb).2.2.vel = p2.vel ∧
    (springUpdateCore sp p1 p2 fb).2.1.F - p1.F
      = -((springUpdateCore sp p1 p2 fb).2.2.F - p2.F) ∧
    (springUpdateCore sp p1 p2 fb).2.1.m_delta_pos - p1.m_delta_pos
      = -((springUpdateCore sp p1 p2 fb).2.2.m_delta_pos - p2.m_delta_pos) ∧
    (springUpdateCore sp p1 p2 fb).2.1.m_delta_vel - p1.m_delta_vel
      = -((springUpdateCore sp p1 p2 fb).2.2.m_delta_vel - p2.m_delta_vel) ∧
    (springUpdateCore sp p1 p2 fb).2.1.m_delta_pos_hard - p1.m_delta_pos_hard
      = -((springUpdateCore sp p1 p2 fb).2.2.m_delta_pos_hard - p2.m_delta_pos_hard) ∧
    (springUpdateCore sp p1 p2 fb).2.1.m_delta_vel_hard - p1.m_delta_vel_hard
      = -((springUpdateCore sp p1 p2 fb).2.2.m_delta_vel_hard - p2.m_delta_vel_hard) := by
  simp only [springUpdateCore]
  by_cases h : magnitudeQ (p2.pos - p1.pos) = sp.natural_length
  · rw [if_pos h]
    refine ⟨rfl, rfl, rfl, rfl, ?_, ?_, ?_, ?_, ?_⟩ <;> abel
  · rw [if_neg h]
    exact springApplyLaw_antisym _ _ _ _ _ _ _

/-- C1: `updateOutput` returns exactly the value of the output-ready
flag; when the flag is set it swaps the latest and read buffer
identities, leaves the write buffer alone and clears the flag, and
when the flag is clear it returns false and changes nothing at all. -/
theorem updateOutput_swaps_iff_ready {n : ℕ} (s : SimState n) :
    (s.updateOutput.2 = s.output_is_ready) ∧
    (s.output_is_ready = true →
      s.updateOutput.1.latest_output = s.read_output ∧
      s.updateOutput.1.read_output = s.latest_output ∧
      s.updateOutput.1.write_output = s.write_output ∧
      s.updateOutput.1.particles = s.particles ∧
      s.updateOutput.1.output_is_ready = false) ∧
    (s.output_is_ready = false →
      s.updateOutput.1 = s ∧ s.updateOutput.2 = false) := by
  unfold SimState.updateOutput
  cases hb : s.output_is_ready with
  | false => simp
  | true => simp

/-- Witness for C1, at a ready state and at the initial state. -/
theorem updateOutput_swaps_iff_ready_witness :
    (wStateReady.updateOutput.1.latest_output = wStateReady.read_output ∧
     wStateReady.updateOutput.1.read_output = wStateReady.latest_output ∧
     wStateReady.updateOutput.1.write_output = wStateReady.write_output ∧
     wStateReady.updateOutput.1.particles = wStateReady.particles ∧
     wStateReady.updateOutput.1.output_is_ready = false) ∧
    ((SimState.init 2).updateOutput.1 = SimState.init 2 ∧
     (SimState.init 2).updateOutput.2 = false) :=
  ⟨(updateOutput_swaps_iff_ready wStateReady).2.1 rfl,
   (updateOutput_swaps_iff_ready (SimState.init 2)).2.2 rfl⟩

/-- C9: `Particle::update` always clears the force accumulator and
both soft deltas; a movable particle (`invMass > 0`) applies the soft
deltas and the force but leaves the hard deltas completely untouched,
while an immovable particle (`invMass = 0`) applies and clears the
hard deltas and clears the soft deltas without applying them (its new
velocity and position involve only the hard deltas). -/
theorem particleUpdate_delta_channels {n : ℕ} (p : Particle n) (dt : ℚ) :
    ((p.update dt).F = 0 ∧
     (p.update dt).m_delta_pos = 0 ∧
     (p.update dt).m_delta_vel = 0) ∧
    (0 < p.invMass →
      (p.update dt).m_delta_pos_hard = p.m_delta_pos_hard ∧
      (p.update dt).m_delta_vel_hard = p.m_delta_vel_hard ∧
      (p.update dt).vel
        = p.vel + tsmul p.m_delta_vel p.invMass + tsmul p.F (p.invMass * dt) ∧
      (p.update dt).pos
        = p.pos + tsmul p.m_delta_pos p.invMass + tsmul ((p.update dt).vel) dt) ∧
    (p.invMass = 0 →
      (p.update dt).m_delta_pos_hard = 0 ∧
      (p.update dt).m_delta_vel_hard = 0 ∧
      (p.update dt).vel = p.vel + p.m_delta_vel_hard ∧
      (p.update dt).pos = p.pos + p.m_delta_pos_hard + tsmul ((p.update dt).vel) dt) := by
  unfold Particle.update
  by_cases h : 0 < p.invMass
  · rw [if_pos h]
    exact ⟨⟨rfl, rfl, rfl⟩, fun _ => ⟨rfl, rfl, rfl, rfl⟩,
      fun he => absurd (he ▸ h) (lt_irrefl 0)⟩
  · rw [if_neg h]
    exact ⟨⟨rfl, rfl, rfl⟩, fun hp => absurd hp h,
      fun _ => ⟨rfl, rfl, rfl, rfl⟩⟩

/-- Witness for C9: one movable and one immovable particle. -/
theorem particleUpdate_delta_channels_witness :
    ((0:ℚ) < wParticleA.invMass ∧
      (wParticleA.update 1).m_delta_pos_hard = wParticleA.m_delta_pos_hard) ∧
    (wAnchor.invMass = 0 ∧ (wAnchor.update 1).m_delta_pos_hard = 0) :=
  ⟨⟨by norm_num [wParticleA, Particle.ofPosMass],
    ((particleUpdate_delta_channels wParticleA 1).2.1
      (by norm_num [wParticleA, Particle.ofPosMass])).1⟩,
   ⟨by norm_num [wAnchor, Particle.ofPosMass],
    ((particleUpdate_delta_channels wAnchor 1).2.2
      (by norm_num [wAnchor, Particle.ofPosMass])).1⟩⟩

/-- C7: whenever the computed endpoint distance differs from
`natural_length`, one `Spring::update` call replaces `natural_length`
by exactly `natural_length + (distance − natural_length) *
deformation_coefficient`, which for a coefficient in `[0,1]` moves it
monotonically toward the distance; the other Simulator operations
(`addParticle`, `updateOutput`) never touch the stored springs, so the
deformation is permanent. -/
theorem springUpdate_deforms_natural_length {n : ℕ} (sp : Spring)
    (p1 p2 : Particle n) (fb : Tup n)
    (hc0 : 0 ≤ sp.deformation_coefficient)
    (hc1 : sp.deformation_coefficient ≤ 1)
    (hne : magnitudeQ (p2.pos - p1.pos) ≠ sp.natural_length) :
    (springUpdateCore sp p1 p2 fb).1.natural_length
      = sp.natural_length
        + (magnitudeQ (p2.pos - p1.pos) - sp.natural_length) * sp.deformation_coefficient ∧
    (sp.natural_length ≤ magnitudeQ (p2.pos - p1.pos) →
      sp.natural_length ≤ (springUpdateCore sp p1 p2 fb).1.natural_length ∧
      (springUpdateCore sp p1 p2 fb).1.natural_length ≤ magnitudeQ (p2.pos - p1.pos)) ∧
    (magnitudeQ (p2.pos - p1.pos) ≤ sp.natural_length →
      magnitudeQ (p2.pos - p1.pos) ≤ (springUpdateCore sp p1 p2 fb).1.natural_length ∧
      (springUpdateCore sp p1 p2 fb).1.natural_length ≤ sp.natural_length) ∧
    (∀ (s : SimState n) (q : Particle n), (s.addParticle q).springs = s.springs) ∧
    (∀ s : SimState n, s.updateOutput.1.springs = s.springs) := by
  have hnl : (springUpdateCore sp p1 p2 fb).1.natural_length
      = sp.natural_length
        + (magnitudeQ (p2.pos - p1.pos) - sp.natural_length) * sp.deformation_coefficient := by
    simp only [springUpdateCore]
    rw [if_neg hne, springApplyLaw_spring_eq]
  refine ⟨hnl, ?_, ?_, fun s q => rfl, fun s => ?_⟩
  · intro hle
    rw [hnl]
    constructor <;> nlinarith
  · intro hle
    rw [hnl]
    constructor <;> nlinarith
  · unfold SimState.updateOutput
    split <;> rfl

/-- C4: two particles joined by a SPRING-law connection, both with
zero velocity, no accumulated force and no pending deltas, whose
computed separation equals `natural_length`, are left exactly in place
by any number of integration cycles (spring update followed by
particle updates), for any `dt ≥ 0`: the spring update is a no-op at
equilibrium and the particle update fixes a static particle. -/
theorem springEquilibrium_stationary {n : ℕ} (sp : Spring)
    (p1 p2 : Particle n) (dt : ℚ) (fb : Tup n) (k : ℕ)
    (hct : sp.compression_force_type = SpringForceType.SPRING)
    (htt : sp.tension_force_type = SpringForceType.SPRING)
    (hdt : 0 ≤ dt)
    (hv1 : p1.vel = 0) (hF1 : p1.F = 0)
    (hsp1 : p1.m_delta_pos = 0) (hsv1 : p1.m_delta_vel = 0)
    (hhp1 : p1.m_delta_pos_hard = 0) (hhv1 : p1.m_delta_vel_hard = 0)
    (hv2 : p2.vel = 0) (hF2 : p2.F = 0)
    (hsp2 : p2.m_delta_pos = 0) (hsv2 : p2.m_delta_vel = 0)
    (hhp2 : p2.m_delta_pos_hard = 0) (hhv2 : p2.m_delta_vel_hard = 0)
    (heq : magnitudeQ (p2.pos - p1.pos) = sp.natural_length) :
    ((springCycle dt fb)^[k] (sp, p1, p2)).2.1.pos = p1.pos ∧
    ((springCycle dt fb)^[k] (sp, p1, p2)).2.1.vel = p1.vel ∧
    ((springCycle dt fb)^[k] (sp, p1, p2)).2.2.pos = p2.pos ∧
    ((springCycle dt fb)^[k] (sp, p1, p2)).2.2.vel = p2.vel := by
  have hcore : springUpdateCore sp p1 p2 fb = (sp, p1, p2) := by
    simp only [springUpdateCore]
    rw [if_pos heq]
  have hfix : springCycle dt fb (sp, p1, p2) = (sp, p1, p2) := by
    unfold springCycle
    dsimp only
    rw [hcore]
    dsimp only
    rw [Particle.update_static p1 dt hv1 hF1 hsp1 hsv1 hhp1 hhv1,
        Particle.update_static p2 dt hv2 hF2 hsp2 hsv2 hhp2 hhv2]
  rw [Function.iterate_fixed hfix]
  exact ⟨rfl, rfl, rfl, rfl⟩

/-- Witness for C4: the unit spring with its endpoints exactly 1
apart, three cycles of `dt = 1/2`. -/
theorem springEquilibrium_stationary_witness :
    magnitudeQ (wParticleB.pos - wParticleA.pos) = wSpringUnit.natural_length ∧
    (0:ℚ) ≤ 1/2 ∧
    ((springCycle (1/2) ![1,0])^[3] (wSpringUnit, wParticleA, wParticleB)).2.1.pos
      = wParticleA.pos ∧
    ((springCycle (1/2) ![1,0])^[3] (wSpringUnit, wParticleA, wParticleB)).2.2.pos
      = wParticleB.pos := by
  have heq : magnitudeQ (wParticleB.pos - wParticleA.pos) = wSpringUnit.natural_length := by
    norm_num [wParticleA, wParticleB, Particle.ofPosMass, wSpringUnit, magnitudeQ,
      magnitudeSquared, List.ofFn_succ, sqrtQ]
  have h := springEquilibrium_stationary wSpringUnit wParticleA wParticleB (1/2) ![1,0] 3
    rfl rfl (by norm_num) rfl rfl rfl rfl rfl rfl rfl rfl rfl rfl rfl rfl heq
  exact ⟨heq, by norm_num, h.1, h.2.2.1⟩

/-- Witness for C7: a spring of natural length 2 and deformation
coefficient 1/2 whose endpoints are 1 apart. -/
theorem springUpdate_deforms_natural_length_witness :
    (0:ℚ) ≤ wSpringDeform.deformation_coefficient ∧
    wSpringDeform.deformation_coefficient ≤ 1 ∧
    magnitudeQ (wParticleB.pos - wParticleA.pos) ≠ wSpringDeform.natural_length ∧
    (springUpdateCore wSpringDeform wParticleA wParticleB ![1,0]).1.natural_length
      = wSpringDeform.natural_length
        + (magnitudeQ (wParticleB.pos - wParticleA.pos) - wSpringDeform.natural_length)
          * wSpringDeform.deformation_coefficient := by
  have hmag : magnitudeQ (wParticleB.pos - wParticleA.pos) = 1 := by
    norm_num [wParticleA, wParticleB, Particle.ofPosMass, magnitudeQ,
      magnitudeSquared, List.ofFn_succ, sqrtQ]
  refine ⟨by norm_num [wSpringDeform], by norm_num [wSpringDeform], ?_, ?_⟩
  · rw [hmag]; norm_num [wSpringDeform]
  · exact (springUpdate_deforms_natural_length wSpringDeform wParticleA wParticleB ![1,0]
      (by norm_num [wSpringDeform]) (by norm_num [wSpringDeform])
      (by rw [hmag]; norm_num [wSpringDeform])).1

/-- `Spring::update` keeps the spring attached to the same two
particle indices. -/
theorem springUpdateCore_index {n : ℕ} (sp : Spring) (p1 p2 : Particle n)
    (fb : Tup n) :
    (springUpdateCore sp p1 p2 fb).1.p1_index = sp.p1_index ∧
    (springUpdateCore sp p1 p2 fb).1.p2_index = sp.p2_index := by
  simp only [springUpdateCore]
  split
  · exact ⟨rfl, rfl⟩
  · rw [springApplyLaw_spring_eq]; exact ⟨rfl, rfl⟩

/-- A successful spring loop preserves the particle count and keeps
every spring attached to the index pair of one of the input springs. -/
theorem runSprings_ok_shape {n : ℕ} (fb : Tup n) :
    ∀ (springs : List Spring) (ps : List (Particle n))
      (q : List (Particle n) × List Spring),
      runSprings fb springs ps = .ok q →
      q.1.length = ps.length ∧
      ∀ sp2 ∈ q.2, ∃ sp ∈ springs,
        sp2.p1_index = sp.p1_index ∧ sp2.p2_index = sp.p2_index := by
  intro springs
  induction springs with
  | nil =>
    intro ps q h
    simp only [runSprings, Except.ok.injEq] at h
    subst h
    exact ⟨rfl, by simp⟩
  | cons sp rest ih =>
    intro ps q h
    simp only [runSprings] at h
    split at h
    case isTrue hb =>
      cases h3 : runSprings fb rest
          ((ps.set sp.p1_index
            (springUpdateCore sp (ps.get ⟨sp.p1_index, hb.1⟩)
              (ps.get ⟨sp.p2_index, hb.2⟩) fb).2.1).set sp.p2_index
            (springUpdateCore sp (ps.get ⟨sp.p1_index, hb.1⟩)
              (ps.get ⟨sp.p2_index, hb.2⟩) fb).2.2) with
      | error e => rw [h3] at h; simp [Except.map] at h
      | ok q2 =>
        rw [h3] at h
        simp only [Except.map, Except.ok.injEq] at h
        subst h
        obtain ⟨hlen, hsp⟩ := ih _ q2 h3
        refine ⟨by simpa using hlen, ?_⟩
        intro sp2 hmem
        rcases List.mem_cons.mp hmem with hhead | htail
        · subst hhead
          exact ⟨sp, by simp,
            (springUpdateCore_index sp _ _ fb).1,
            (springUpdateCore_index sp _ _ fb).2⟩
        · obtain ⟨sp0, hsp0, hi⟩ := hsp sp2 htail
          exact ⟨sp0, by simp [hsp0], hi⟩
    case isFalse => simp at h

/-- When every spring references in-range particles, the spring loop
succeeds. -/
theorem runSprings_ok_of_inRange {n : ℕ} (fb : Tup n) :
    ∀ (springs : List Spring) (ps : List (Particle n)),
      (∀ sp ∈ springs, sp.p1_index < ps.length ∧ sp.p2_index < ps.length) →
      ∃ q, runSprings fb springs ps = .ok q := by
  intro springs
  induction springs with
  | nil => intro ps _; exact ⟨(ps, []), rfl⟩
  | cons sp rest ih =>
    intro ps hq
    have hb : sp.p1_index < ps.length ∧ sp.p2_index < ps.length :=
      hq sp (by simp)
    obtain ⟨q2, hq2⟩ := ih
      ((ps.set sp.p1_index
        (springUpdateCore sp (ps.get ⟨sp.p1_index, hb.1⟩)
          (ps.get ⟨sp.p2_index, hb.2⟩) fb).2.1).set sp.p2_index
        (springUpdateCore sp (ps.get ⟨sp.p1_index, hb.1⟩)
          (ps.get ⟨sp.p2_index, hb.2⟩) fb).2.2)
      (by
        intro sp0 hsp0
        have := hq sp0 (by simp [hsp0])
        simpa using this)
    refine ⟨(q2.1,
      (springUpdateCore sp (ps.get ⟨sp.p1_index, hb.1⟩)
        (ps.get ⟨sp.p2_index, hb.2⟩) fb).1 :: q2.2), ?_⟩
    simp only [runSprings]
    rw [dif_pos hb, hq2]
    rfl

/-- The fresh Simulator satisfies the length/index invariant. -/
theorem simInv_init (n : ℕ) : SimInv (SimState.init n) := by
  simp [SimInv, SimState.init]

/-- Every API call preserves the length/index invariant. -/
theorem exec_preserves_simInv {n : ℕ} (s : SimState n) (c : Cmd n)
    (h : SimInv s) : SimInv (s.exec c) := by
  obtain ⟨hw, hl, hr, hs⟩ := h
  cases c with
  | addParticle p =>
    refine ⟨?_, ?_, ?_, ?_⟩ <;>
      simp [SimState.exec, SimState.addParticle, hw, hl, hr]
    intro sp hsp
    have := hs sp hsp
    omega
  | addSpring i j sp =>
    simp only [SimState.exec]
    cases hcall : (s.addSpringE i j sp) with
    | error e => exact ⟨hw, hl, hr, hs⟩
    | ok s2 =>
      simp only [SimState.addSpringE] at hcall
      split at hcall
      · simp at hcall
      · split at hcall
        case isTrue hins =>
          simp only [Except.ok.injEq] at hcall
          subst hcall
          refine ⟨hw, hl, hr, ?_⟩
          intro sp2 hsp2
          simp only [List.mem_append, List.mem_singleton] at hsp2
          rcases hsp2 with hold | hnew
          · exact hs sp2 hold
          · subst hnew
            exact hins
        case isFalse => simp at hcall
  | updateState dt fb =>
    simp only [SimState.exec]
    cases hcall : s.updateStateE dt fb with
    | error e => exact ⟨hw, hl, hr, hs⟩
    | ok s2 =>
      simp only [SimState.updateStateE] at hcall
      split at hcall
      · simp at hcall
      · cases hrun : runSprings fb s.springs s.particles with
        | error e => rw [hrun] at hcall; simp at hcall
        | ok q =>
          rw [hrun] at hcall
          obtain ⟨hlen, hshape⟩ := runSprings_ok_shape fb s.springs s.particles q hrun
          simp only at hcall
          split at hcall
          case isTrue hle =>
            simp only [Except.ok.injEq] at hcall
            subst hcall
            refine ⟨?_, ?_, ?_, ?_⟩
            · simp only [List.length_map]
              omega
            · simp only [List.length_append, List.length_map, List.length_drop]
              omega
            · simp only [List.length_map]
              omega
            · intro sp2 hsp2
              obtain ⟨sp0, hsp0, h1, h2⟩ := hshape sp2 hsp2
              have hb := hs sp0 hsp0
              constructor
              · rw [h1]; simp only [List.length_map]; omega
              · rw [h2]; simp only [List.length_map]; omega
          case isFalse => simp at hcall
  | updateOutput =>
    simp only [SimState.exec, SimState.updateOutput]
    split
    · exact ⟨hw, hr, hl, hs⟩
    · exact ⟨hw, hl, hr, hs⟩
  | start => exact ⟨hw, hl, hr, hs⟩
  | stop => exact ⟨hw, hl, hr, hs⟩

/-- Every API call changes the particle count by exactly one when it
is an `addParticle` and by nothing otherwise. -/
theorem exec_particle_count {n : ℕ} (s : SimState n) (c : Cmd n) :
    (s.exec c).particles.length
      = s.particles.length + (if c.isAddParticle then 1 else 0) := by
  cases c with
  | addParticle p => simp [SimState.exec, SimState.addParticle, Cmd.isAddParticle]
  | addSpring i j sp =>
    simp only [SimState.exec]
    cases hcall : s.addSpringE i j sp with
    | error e => simp [Cmd.isAddParticle]
    | ok s2 =>
      simp only [SimState.addSpringE] at hcall
      split at hcall
      · simp at hcall
      · split at hcall
        · simp only [Except.ok.injEq] at hcall
          subst hcall
          simp [Cmd.isAddParticle]
        · simp at hcall
  | updateState dt fb =>
    simp only [SimState.exec]
    cases hcall : s.updateStateE dt fb with
    | error e => simp [Cmd.isAddParticle]
    | ok s2 =>
      simp only [SimState.updateStateE] at hcall
      split at hcall
      · simp at hcall
      · cases hrun : runSprings fb s.springs s.particles with
        | error e => rw [hrun] at hcall; simp at hcall
        | ok q =>
          rw [hrun] at hcall
          obtain ⟨hlen, _⟩ := runSprings_ok_shape fb s.springs s.particles q hrun
          simp only at hcall
          split at hcall
          · simp only [Except.ok.injEq] at hcall
            subst hcall
            simp [Cmd.isAddParticle, hlen]
          · simp at hcall
  | updateOutput =>
    simp only [SimState.exec, SimState.updateOutput]
    split <;> simp [Cmd.isAddParticle]
  | start => simp [SimState.exec, Cmd.isAddParticle]
  | stop => simp [SimState.exec, Cmd.isAddParticle]

/-- The invariant holds along any foldl of API calls. -/
theorem foldl_preserves_simInv {n : ℕ} :
    ∀ (cmds : List (Cmd n)) (s : SimState n),
      SimInv s → SimInv (cmds.foldl SimState.exec s) := by
  intro cmds
  induction cmds with
  | nil => intro s h; exact h
  | cons c rest ih =>
    intro s h
    exact ih _ (exec_preserves_simInv s c h)

/-- The particle count after a foldl of API calls. -/
theorem foldl_particle_count {n : ℕ} :
    ∀ (cmds : List (Cmd n)) (s : SimState n),
      (cmds.foldl SimState.exec s).particles.length
        = s.particles.length + (cmds.filter Cmd.isAddParticle).length := by
  intro cmds
  induction cmds with
  | nil => intro s; simp
  | cons c rest ih =>
    intro s
    simp only [List.foldl_cons, List.filter_cons]
    rw [ih]
    rw [exec_particle_count]
    cases hc : c.isAddParticle <;> simp [hc] <;> omega

/-- Every API-reachable state satisfies the invariant. -/
theorem reachable_simInv {n : ℕ} (s : SimState n) (h : Reachable s) :
    SimInv s := by
  obtain ⟨cmds, rfl⟩ := h
  exact foldl_preserves_simInv cmds _ (simInv_init n)

/-- C2: after any sequence of API calls, `getOutput` returns exactly
one slot per particle added so far, and all three output buffers
always have length equal to the particle-list length (`addParticle`
extends all four lists together, and no other call changes any of the
lengths). -/
theorem outputLength_eq_particleCount (n : ℕ) (cmds : List (Cmd n)) :
    (runCmds n cmds).getOutput.length = (runCmds n cmds).size ∧
    (runCmds n cmds).size = (cmds.filter Cmd.isAddParticle).length ∧
    (runCmds n cmds).write_output.length = (runCmds n cmds).size ∧
    (runCmds n cmds).latest_output.length = (runCmds n cmds).size ∧
    (runCmds n cmds).read_output.length = (runCmds n cmds).size := by
  have hinv := foldl_preserves_simInv cmds (SimState.init n) (simInv_init n)
  have hcount := foldl_particle_count cmds (SimState.init n)
  obtain ⟨hw, hl, hr, _⟩ := hinv
  refine ⟨hr, ?_, hw, hl, hr⟩
  simpa [SimState.init, SimState.size, runCmds] using hcount

/-- C8: calling `updateState` on a running Simulator is a fatal,
diagnosable failure (the embedded call reports the exact error the
C++ prints before `exit(EXIT_FAILURE)`), and on any API-reachable
non-running state `updateState` never fails. -/
theorem updateState_running_fatal {n : ℕ} (s : SimState n) (dt : ℚ)
    (fb : Tup n) :
    (s.running = true →
      s.updateStateE dt fb
        = .error "cannot call updateState on running Simulator instance") ∧
    (Reachable s → s.running = false →
      ∃ s2, s.updateStateE dt fb = .ok s2) := by
  constructor
  · intro hrun
    simp [SimState.updateStateE, hrun]
  · intro hreach hrun
    obtain ⟨hw, _, _, hs⟩ := reachable_simInv s hreach
    obtain ⟨q, hq⟩ := runSprings_ok_of_inRange fb s.springs s.particles hs
    have hlen := (runSprings_ok_shape fb s.springs s.particles q hq).1
    simp only [SimState.updateStateE, hrun]
    rw [if_neg (by simp), hq]
    simp only
    rw [if_pos (by rw [hlen, hw])]
    exact ⟨_, rfl⟩

/-- Witness for C8: the running state errors, the fresh (reachable,
non-running) Simulator succeeds. -/
theorem updateState_running_fatal_witness :
    wStateRunning.running = true ∧
    wStateRunning.updateStateE 1 ![1,0]
      = .error "cannot call updateState on running Simulator instance" ∧
    (SimState.init 2).running = false ∧
    ∃ s2, (SimState.init 2).updateStateE 1 ![1,0] = .ok s2 :=
  ⟨rfl,
   (updateState_running_fatal wStateRunning 1 ![1,0]).1 rfl,
   rfl,
   (updateState_running_fatal (SimState.init 2) 1 ![1,0]).2 ⟨[], rfl⟩ rfl⟩

/-- One gravity step on a particle with clean accumulators and
`invMass = 1`: velocity-first (semi-implicit) Euler with the force
`(0,−1)` and `dt = 1/10`. -/
theorem gravStep_components (p : Particle 2)
    (hF : p.F = 0) (hsd : p.m_delta_pos = 0) (hsv : p.m_delta_vel = 0)
    (him : p.invMass = 1) :
    (gravStep p).pos 0 = p.pos 0 + p.vel 0 * (1/10) ∧
    (gravStep p).pos 1 = p.pos 1 + (p.vel 1 - 1/10) * (1/10) ∧
    (gravStep p).vel 0 = p.vel 0 ∧
    (gravStep p).vel 1 = p.vel 1 - 1/10 ∧
    (gravStep p).F = 0 ∧
    (gravStep p).m_delta_pos = 0 ∧
    (gravStep p).m_delta_vel = 0 ∧
    (gravStep p).invMass = 1 := by
  dsimp only [gravStep, Particle.update]
  rw [him, hF, hsd, hsv]
  rw [if_pos (by norm_num : (0:ℚ) < 1)]
  refine ⟨?_, ?_, ?_, ?_, rfl, rfl, rfl, rfl⟩ <;>
    simp [tsmul, Pi.add_apply, Pi.zero_apply] <;> ring

/-- Exact closed form of the gravity scenario after `k` steps:
`vel = (0, −k/10)` and `pos = (0, −k(k+1)/200)` (semi-implicit Euler
applies the freshly updated velocity to the position every step). -/
theorem gravTrajectory (k : ℕ) :
    (gravStep^[k] freeParticle).pos 0 = 0 ∧
    (gravStep^[k] freeParticle).pos 1 = -((k:ℚ) * (k+1)) / 200 ∧
    (gravStep^[k] freeParticle).vel 0 = 0 ∧
    (gravStep^[k] freeParticle).vel 1 = -(k:ℚ)/10 ∧
    (gravStep^[k] freeParticle).F = 0 ∧
    (gravStep^[k] freeParticle).m_delta_pos = 0 ∧
    (gravStep^[k] freeParticle).m_delta_vel = 0 ∧
    (gravStep^[k] freeParticle).invMass = 1 := by
  induction k with
  | zero =>
    refine ⟨?_, ?_, ?_, ?_, rfl, rfl, rfl, ?_⟩ <;>
      norm_num [freeParticle, Particle.ofPosMass]
  | succ k ih =>
    obtain ⟨hp0, hp1, hv0, hv1, hF, hsd, hsv, him⟩ := ih
    rw [Function.iterate_succ_apply'] at *
    obtain ⟨g0, g1, g2, g3, g4, g5, g6, g7⟩ :=
      gravStep_components _ hF hsd hsv him
    refine ⟨?_, ?_, ?_, ?_, g4, g5, g6, g7⟩
    · rw [g0, hp0, hv0]; ring
    · rw [g1, hp1, hv1]; push_cast; ring
    · rw [g2, hv0]
    · rw [g3, hv1]; push_cast; ring

/-- C3 counterexample: in the concrete gravity scenario (mass 1, zero
initial state, force `(0,−1)` accumulated once before each of 10
`dt = 1/10` steps) the particle ends at `y = −11/20 = −0.55`, which
does NOT lie between −0.5 and −0.45 as claimed: the integrator updates
velocity before position, giving `y = −Σ k·dt² = −0.55`, not the
claimed explicit-Euler range. -/
theorem gravScenario_not_in_claimed_range :
    (gravStep^[10] freeParticle).pos 1 = -11/20 ∧
    ¬(-(1:ℚ)/2 ≤ (gravStep^[10] freeParticle).pos 1 ∧
      (gravStep^[10] freeParticle).pos 1 ≤ -(45:ℚ)/100) := by
  have h := (gravTrajectory 10).2.1
  constructor
  · rw [h]; norm_num
  · rw [h]; norm_num

/-- The zero-separation spring applies force along whatever unit
vector the random fallback supplies. -/
theorem springUpdateCore_coincident (fb : Tup 2) :
    (springUpdateCore wSpringUnit wParticleA wParticleA fb).2.1.F
      = tsmul fb (-1) := by
  have hz : wParticleA.pos - wParticleA.pos = (0 : Tup 2) := sub_self _
  have hm : magnitudeQ ((0 : Tup 2)) = 0 := by
    norm_num [magnitudeQ, magnitudeSquared, List.ofFn_succ, sqrtQ]
  simp only [springUpdateCore, hz, hm]
  norm_num [wSpringUnit, springApplyLaw, unitW, hm, wParticleA,
    Particle.ofPosMass]

/-- C10: with both endpoint particles at the same position the
connection axis comes from normalizing the zero vector, which falls
back to the randomly oriented unit vector drawn from the global random
state (modelled as the explicit `fb` argument of the embedding); two
runs from the identical particle/connection state but different draws
mutate the particles differently, so `Spring::update` is not a
function of the particle/connection state alone. -/
theorem springUpdate_zero_axis_nondeterministic :
    wParticleA.pos - wParticleA.pos = 0 ∧
    (springUpdateCore wSpringUnit wParticleA wParticleA ![1, 0]).2.1.F
      ≠ (springUpdateCore wSpringUnit wParticleA wParticleA ![0, 1]).2.1.F := by
  refine ⟨sub_self _, ?_⟩
  rw [springUpdateCore_coincident, springUpdateCore_coincident]
  intro h
  have h0 := congrFun h 0
  norm_num [tsmul] at h0

/-- C6 (code evaluated at the failing input): the two segments of
`wDetectParticles` are disjoint along the (only) tested axis — the
projection interval of `obj2` lies strictly below that of `obj1` — yet
`detectObjectCollision` returns `true` (colliding) with intersection 0
and returns the caller's axis value untouched.  The separating-axis
early exit tests `diff2 = maxproj2 - minproj2` (object 2 against
itself) instead of `maxproj2 - minproj1`, so a separation with `obj2`
below `obj1` is never detected, and `axisOfMinimumIntersection` is
never written. -/
theorem detect_reports_collision_for_disjoint_objects :
    ((projInterval wDetectParticles wAxis wObj2.particle_refs).2
      < (projInterval wDetectParticles wAxis wObj1.particle_refs).1) ∧
    detectObjectCollision Surface.getNormal ![1, 0] wDetectParticles wObj1 wObj2
      ![5, 7]
      = (true, ![5, 7], 0) := by
  have hn1 : Surface.getNormal ⟨![0, 1]⟩ wDetectParticles = ![1, 0] := by
    funext i
    fin_cases i <;>
      norm_num [Surface.getNormal, posAt, wDetectParticles, Particle.ofPosMass]
  have hn2 : Surface.getNormal ⟨![2, 3]⟩ wDetectParticles = ![1, 0] := by
    funext i
    fin_cases i <;>
      norm_num [Surface.getNormal, posAt, wDetectParticles, Particle.ofPosMass]
  have hmag1 : magnitudeQ (![1, 0] : Tup 2) = 1 := by
    norm_num [magnitudeQ, magnitudeSquared, List.ofFn_succ, sqrtQ]
  have haxis : unitW (![1, 0] : Tup 2) ![1, 0] = tdiv ![1, 0] 1 := by
    simp [unitW, hmag1]
  have htdiv : tdiv (![1, 0] : Tup 2) 1 = ![1, 0] := by
    funext i
    fin_cases i <;> norm_num [tdiv]
  have hax : wAxis = ![1, 0] := by
    rw [wAxis, hn1, haxis, htdiv]
  have hp0 : posAt wDetectParticles 0 = ![10, 0] := by
    norm_num [posAt, wDetectParticles, Particle.ofPosMass]
  have hp1 : posAt wDetectParticles 1 = ![10, 1] := by
    norm_num [posAt, wDetectParticles, Particle.ofPosMass]
  have hp2 : posAt wDetectParticles 2 = ![0, 0] := by
    norm_num [posAt, wDetectParticles, Particle.ofPosMass]
  have hp3 : posAt wDetectParticles 3 = ![0, 1] := by
    norm_num [posAt, wDetectParticles, Particle.ofPosMass]
  have hpr0 : projScalar (posAt wDetectParticles 0) ![1, 0] = 10 := by
    rw [hp0]
    norm_num [projScalar, dotQ, List.ofFn_succ, hmag1]
  have hpr1 : projScalar (posAt wDetectParticles 1) ![1, 0] = 10 := by
    rw [hp1]
    norm_num [projScalar, dotQ, List.ofFn_succ, hmag1]
  have hpr2 : projScalar (posAt wDetectParticles 2) ![1, 0] = 0 := by
    rw [hp2]
    norm_num [projScalar, dotQ, List.ofFn_succ, hmag1]
  have hpr3 : projScalar (posAt wDetectParticles 3) ![1, 0] = 0 := by
    rw [hp3]
    norm_num [projScalar, dotQ, List.ofFn_succ, hmag1]
  have hint1 : projInterval wDetectParticles ![1, 0] wObj1.particle_refs
      = (10, 10) := by
    simp [projInterval, wObj1, hpr0, hpr1]
  have hint2 : projInterval wDetectParticles ![1, 0] wObj2.particle_refs
      = (0, 0) := by
    simp [projInterval, wObj2, hpr2, hpr3]
  constructor
  · rw [hax, hint1, hint2]
    norm_num
  · have hsurf : wObj1.surfaces ++ wObj2.surfaces
        = [(⟨![0, 1]⟩ : Surface 2), ⟨![2, 3]⟩] := rfl
    simp only [detectObjectCollision, hsurf]
    norm_num [detectLoop, hn1, hn2, haxis, htdiv, hint1, hint2]

/-- C3 amended: the particle's position after the 10th step is exactly
`(0, −0.55)` (in exact arithmetic), i.e. it lies between `(0, −0.55)`
and `(0, −0.5)`, just below the originally claimed range. -/
theorem gravScenario_position_after_ten_steps :
    (gravStep^[10] freeParticle).pos 0 = 0 ∧
    (gravStep^[10] freeParticle).pos 1 = -11/20 ∧
    -(11:ℚ)/20 ≤ (gravStep^[10] freeParticle).pos 1 ∧
    (gravStep^[10] freeParticle).pos 1 ≤ -(1:ℚ)/2 := by
  have h := gravTrajectory 10
  have h1 := h.2.1
  exact ⟨h.1, by rw [h1]; norm_num, by rw [h1]; norm_num, by rw [h1]; norm_num⟩

end Brazen
